import Mathlib

/-!
WechatExporter, `core/XmlParser.h`

A shallow embedding of the inline code of `XmlParser.h`:

* the nested class `XmlParser::XPathEnumerator` (two constructors, `isInvalid`,
  `hasNext`, `nextNode`, destructor);
* `XmlParser::parseWithHandler`;
* `XmlParser::getNodeInnerText` and `XmlParser::getNodeInnerXml`.

Pointers are options (`none` is `NULL`).  C `int` values are integers of `Int`;
`Int32.inRange` states the range of the machine type and
`XmlParser.XPathEnumerator.arithmetic_in_range` shows that the two arithmetic
expressions of the enumerator stay inside it.  XPath result objects live in an
explicit heap (`XPathHeap`) that records which objects are live and every call
of `xmlXPathFreeObject`.  An operation whose C++ behaviour is undefined (a
dereferenced `NULL`, an index outside the node table) returns `none`.
-/

namespace WechatExporter

/-! ## The libxml2 data the header reads -/

/-- The libxml2 `xmlNodeSet` as far as the header reads it: `nodeNr`, the number of nodes
in the set (a C `int`), and `nodeTab`, the table of node pointers (all allocated slots). -/
structure xmlNodeSet (α : Type) where
  nodeNr : Int
  nodeTab : List α
deriving DecidableEq, Repr

/-- The libxml2 `xmlXPathObject` as far as the header reads it: the field `nodesetval`
(`none` is `NULL`), together with the address `addr` that identifies the heap object. -/
structure xmlXPathObject (α : Type) where
  addr : Nat
  nodesetval : Option (xmlNodeSet α)
deriving DecidableEq, Repr

/-- What one XPath evaluation of the engine yields before it is placed on the heap: `none` when
the engine returns `NULL`, otherwise the `nodesetval` of the new result object. -/
abbrev XPathOutcome (α : Type) := Option (Option (xmlNodeSet α))

/-- The engine invariant of a node-set: `0 ≤ nodeNr` and the table holds at least `nodeNr`
entries. -/
def xmlNodeSet.WellFormed {α : Type} (ns : xmlNodeSet α) : Prop :=
  0 ≤ ns.nodeNr ∧ ns.nodeNr ≤ (ns.nodeTab.length : Int)

instance {α : Type} (ns : xmlNodeSet α) : Decidable ns.WellFormed := by
  unfold xmlNodeSet.WellFormed; exact inferInstance

/-- An evaluation outcome is well formed when its node-set, if present, is. -/
def XPathOutcome.WellFormed {α : Type} : XPathOutcome α → Prop
  | some (some ns) => ns.WellFormed
  | _ => True

instance {α : Type} (r : XPathOutcome α) : Decidable (XPathOutcome.WellFormed r) := by
  unfold XPathOutcome.WellFormed; split <;> exact inferInstance

/-- The number of matches an evaluation outcome reports: `nodeNr` of its node-set, and `0` when
there is no result object or no node-set. -/
def XPathOutcome.count {α : Type} : XPathOutcome α → Int
  | some (some ns) => ns.nodeNr
  | _ => 0

/-- The node table of an evaluation outcome (empty when there is none). -/
def XPathOutcome.table {α : Type} : XPathOutcome α → List α
  | some (some ns) => ns.nodeTab
  | _ => []

/-- Range of the C type `int` (32 bits, two's complement). -/
def Int32.inRange (x : Int) : Prop := -2147483648 ≤ x ∧ x ≤ 2147483647

/-! ## The heap of XPath result objects -/

/-- Explicit state for XPath result objects: `live` are the addresses handed out by an
evaluation and not yet released, `freed` logs every call of `xmlXPathFreeObject` (most recent
first), `next` is the address the next evaluation hands out. -/
structure XPathHeap where
  live : List Nat
  freed : List Nat
  next : Nat
deriving DecidableEq, Repr

/-- The engine places the outcome of an evaluation on the heap: nothing happens for `NULL`,
otherwise a fresh result object is allocated and becomes live. -/
def XPathHeap.place {α : Type} (r : XPathOutcome α) (h : XPathHeap) :
    Option (xmlXPathObject α) × XPathHeap :=
  match r with
  | none => (none, h)
  | some nsv =>
    (some { addr := h.next, nodesetval := nsv },
     { live := h.next :: h.live, freed := h.freed, next := h.next + 1 })

/-- The libxml2 `xmlXPathFreeObject`: the object stops being live and the call is logged. -/
def xmlXPathFreeObject {α : Type} (obj : xmlXPathObject α) (h : XPathHeap) : XPathHeap :=
  { live := h.live.erase obj.addr, freed := obj.addr :: h.freed, next := h.next }

/-- The XPath engine bound to a document: the pure part of `xmlXPathEvalExpression` and of
`xmlXPathNodeEval`, as functions of the expression, the (possibly `NULL`) context and, for the
second, the scope node. -/
structure XPathEngine (α Ctx : Type) where
  evalExpression : String → Option Ctx → XPathOutcome α
  nodeEval : α → String → Option Ctx → XPathOutcome α

/-- The libxml2 `xmlXPathEvalExpression(str, ctx)`. -/
def xmlXPathEvalExpression {α Ctx : Type} (eng : XPathEngine α Ctx) (str : String)
    (ctx : Option Ctx) (h : XPathHeap) : Option (xmlXPathObject α) × XPathHeap :=
  XPathHeap.place (eng.evalExpression str ctx) h

/-- The libxml2 `xmlXPathNodeEval(node, str, ctx)`. -/
def xmlXPathNodeEval {α Ctx : Type} (eng : XPathEngine α Ctx) (node : α) (str : String)
    (ctx : Option Ctx) (h : XPathHeap) : Option (xmlXPathObject α) × XPathHeap :=
  XPathHeap.place (eng.nodeEval node str ctx) h

/-! ## `class XmlParser` -/

/-- The data members of `class XmlParser`: `m_doc` and `m_xpathCtx`, both possibly `NULL`. -/
structure XmlParser (Doc Ctx : Type) where
  m_doc : Option Doc
  m_xpathCtx : Option Ctx

namespace XmlParser

/-- The data members of `XmlParser::XPathEnumerator`. -/
structure XPathEnumerator (α : Type) where
  m_xPathObj : Option (xmlXPathObject α)
  m_numberOfNodes : Int
  m_cursor : Int
deriving DecidableEq, Repr

namespace XPathEnumerator

/-- Constructor
`XPathEnumerator(const XmlParser& xmlParser, xmlNodePtr curNode, const std::string& xpath)`:
the members start as `NULL`, `0`, `-1`; the expression is evaluated under `curNode`; the count is
taken from `nodeNr` when the result object and its node-set are both present. -/
def ofNode {α Doc Ctx : Type} (eng : XPathEngine α Ctx) (xmlParser : XmlParser Doc Ctx)
    (curNode : α) (xpath : String) (h : XPathHeap) : XPathEnumerator α × XPathHeap :=
  let (obj, h1) := xmlXPathNodeEval eng curNode xpath xmlParser.m_xpathCtx h
  match obj with
  | some o =>
    match o.nodesetval with
    | some ns => ({ m_xPathObj := some o, m_numberOfNodes := ns.nodeNr, m_cursor := -1 }, h1)
    | none => ({ m_xPathObj := some o, m_numberOfNodes := 0, m_cursor := -1 }, h1)
  | none => ({ m_xPathObj := none, m_numberOfNodes := 0, m_cursor := -1 }, h1)

/-- Constructor `XPathEnumerator(const XmlParser& xmlParser, const std::string& xpath)`: as `ofNode`, with
the expression evaluated against the whole document. -/
def ofDocument {α Doc Ctx : Type} (eng : XPathEngine α Ctx) (xmlParser : XmlParser Doc Ctx)
    (xpath : String) (h : XPathHeap) : XPathEnumerator α × XPathHeap :=
  let (obj, h1) := xmlXPathEvalExpression eng xpath xmlParser.m_xpathCtx h
  match obj with
  | some o =>
    match o.nodesetval with
    | some ns => ({ m_xPathObj := some o, m_numberOfNodes := ns.nodeNr, m_cursor := -1 }, h1)
    | none => ({ m_xPathObj := some o, m_numberOfNodes := 0, m_cursor := -1 }, h1)
  | none => ({ m_xPathObj := none, m_numberOfNodes := 0, m_cursor := -1 }, h1)

/-- Method `isInvalid()`: `NULL == m_xPathObj`. -/
def isInvalid {α : Type} (e : XPathEnumerator α) : Bool :=
  e.m_xPathObj.isNone

/-- Method `hasNext()`: `m_cursor < (m_numberOfNodes - 1)`. -/
def hasNext {α : Type} (e : XPathEnumerator α) : Bool :=
  decide (e.m_cursor < e.m_numberOfNodes - 1)

/-- Method `nextNode()`: `m_xPathObj->nodesetval->nodeTab[++m_cursor]`.  The result is the node and
the enumerator with the advanced cursor; it is `none` where the C++ expression is undefined
(`m_xPathObj` or `nodesetval` is `NULL`, or the index is outside the table). -/
def nextNode {α : Type} (e : XPathEnumerator α) : Option (α × XPathEnumerator α) :=
  match e.m_xPathObj with
  | none => none
  | some obj =>
    match obj.nodesetval with
    | none => none
    | some ns =>
      let cursor := e.m_cursor + 1
      if 0 ≤ cursor then
        match ns.nodeTab[cursor.toNat]? with
        | some node => some (node, { e with m_cursor := cursor })
        | none => none
      else none

/-- Destructor `~XPathEnumerator()`: the result object is released when it is not `NULL`. -/
def destroy {α : Type} (e : XPathEnumerator α) (h : XPathHeap) : XPathHeap :=
  match e.m_xPathObj with
  | some obj => xmlXPathFreeObject obj h
  | none => h

/-- The outcome of running a client loop for a bounded number of iterations. -/
inductive LoopResult (α : Type) where
  /-- The loop ended because `hasNext()` was false: the nodes returned, in call order, and
  the final enumerator. -/
  | done (nodes : List α) (final : XPathEnumerator α)
  /-- A `nextNode()` call was undefined. -/
  | undefined
  /-- The iteration bound was reached while `hasNext()` was still true. -/
  | outOfFuel
deriving DecidableEq, Repr

/-- The client loop `while (e.hasNext()) { e.nextNode(); }` run for at most `fuel` iterations:
the nodes the `nextNode()` calls return, one entry per call, in call order. -/
def drain {α : Type} : Nat → XPathEnumerator α → LoopResult α
  | 0, e => if hasNext e then .outOfFuel else .done [] e
  | fuel + 1, e =>
    if hasNext e then
      match nextNode e with
      | none => .undefined
      | some (node, e') =>
        match drain fuel e' with
        | .done nodes final => .done (node :: nodes) final
        | .undefined => .undefined
        | .outOfFuel => .outOfFuel
    else .done [] e

/-- The enumerator states a client can reach from `e0` by `hasNext()` calls (which leave the
state as it is) and by `nextNode()` calls made while `hasNext()` is true. -/
inductive Reachable {α : Type} (e0 : XPathEnumerator α) : XPathEnumerator α → Prop where
  | start : Reachable e0 e0
  | next {e e' : XPathEnumerator α} {node : α} :
      Reachable e0 e → hasNext e = true → nextNode e = some (node, e') → Reachable e0 e'

/-- The arguments of the two constructors of `XPathEnumerator` (besides the parser). -/
inductive CtorArgs (α : Type) where
  /-- The constructor `XPathEnumerator(xmlParser, curNode, xpath)`. -/
  | node (curNode : α) (xpath : String)
  /-- The constructor `XPathEnumerator(xmlParser, xpath)`. -/
  | document (xpath : String)

/-- Construction of an `XPathEnumerator`: the constructor the overload resolution selects. -/
def construct {α Doc Ctx : Type} (eng : XPathEngine α Ctx) (xmlParser : XmlParser Doc Ctx)
    (args : CtorArgs α) (h : XPathHeap) : XPathEnumerator α × XPathHeap :=
  match args with
  | .node curNode xpath => ofNode eng xmlParser curNode xpath h
  | .document xpath => ofDocument eng xmlParser xpath h

/-- The outcome of the evaluation the selected constructor performs. -/
def outcome {α Doc Ctx : Type} (eng : XPathEngine α Ctx) (xmlParser : XmlParser Doc Ctx)
    (args : CtorArgs α) : XPathOutcome α :=
  match args with
  | .node curNode xpath => eng.nodeEval curNode xpath xmlParser.m_xpathCtx
  | .document xpath => eng.evalExpression xpath xmlParser.m_xpathCtx

/-- The enumerator `e` belongs to the evaluation outcome `r`: its result object carries the
node-set of `r`, its count is the count of `r`, and its cursor is at least `-1`. -/
def Tracks {α : Type} (r : XPathOutcome α) (e : XPathEnumerator α) : Prop :=
  e.m_xPathObj.map (fun o => o.nodesetval) = r ∧ e.m_numberOfNodes = r.count ∧ -1 ≤ e.m_cursor

/-- Specification side: the state predicate of the enumerator, `-1 ≤ cursor ≤ count - 1`. -/
def Inv {α : Type} (e : XPathEnumerator α) : Prop :=
  -1 ≤ e.m_cursor ∧ e.m_cursor ≤ e.m_numberOfNodes - 1

end XPathEnumerator

/-- Method `XmlParser::parseWithHandler(xpath, handler)`.  The handler is a function object: it gets
the node-set and its own state `s` and gives back its boolean result and its new state; it acts
on that state only and has no access to the heap of result objects.  The result is the
returned boolean, the state of the handler and the heap at return. -/
def parseWithHandler {α Doc Ctx σ : Type} (eng : XPathEngine α Ctx) (self : XmlParser Doc Ctx)
    (xpath : String) (handler : xmlNodeSet α → σ → Bool × σ) (s : σ) (h : XPathHeap) :
    Bool × σ × XPathHeap :=
  if self.m_doc.isNone || self.m_xpathCtx.isNone then
    (false, s, h)
  else
    let (xpathObj, h1) := xmlXPathEvalExpression eng xpath self.m_xpathCtx h
    match xpathObj with
    | some obj =>
      match obj.nodesetval with
      | some xpathNodes =>
        if 0 < xpathNodes.nodeNr then
          let (r, s1) := handler xpathNodes s
          (r, s1, xmlXPathFreeObject obj h1)
        else
          (false, s, xmlXPathFreeObject obj h1)
      | none => (false, s, xmlXPathFreeObject obj h1)
    | none => (false, s, h1)

/-- A handler that, besides doing what `handler` does, appends the node-set of every
invocation to a log kept next to its state. -/
def recording {α σ : Type} (handler : xmlNodeSet α → σ → Bool × σ) :
    xmlNodeSet α → σ × List (xmlNodeSet α) → Bool × (σ × List (xmlNodeSet α)) :=
  fun ns st => ((handler ns st.1).1, ((handler ns st.1).2, st.2 ++ [ns]))

/-- Specification side: the condition under which the handler is to be invoked.  The document
and the XPath context are present, the evaluation produced a result object, its node-set is present and has at least
one node.  The value is that node-set, or `none` when the condition fails. -/
def specDispatch {α Doc Ctx : Type} (eng : XPathEngine α Ctx) (self : XmlParser Doc Ctx)
    (xpath : String) : Option (xmlNodeSet α) :=
  if self.m_doc.isSome && self.m_xpathCtx.isSome then
    match eng.evalExpression xpath self.m_xpathCtx with
    | some (some ns) => if 0 < ns.nodeNr then some ns else none
    | _ => none
  else none

/-- Specification side: the addresses of the result objects one call of `parseWithHandler`
obtains from the engine, which is the fresh address when the context is valid and the
evaluation returns an object, and nothing otherwise. -/
def specObtained {α Doc Ctx : Type} (eng : XPathEngine α Ctx) (self : XmlParser Doc Ctx)
    (xpath : String) (h : XPathHeap) : List Nat :=
  if self.m_doc.isSome && self.m_xpathCtx.isSome then
    match eng.evalExpression xpath self.m_xpathCtx with
    | some _ => [h.next]
    | none => []
  else []

end XmlParser

/-! ## Nodes -/

/-- The node kinds (`xmlElementType`) of a parsed element tree: elements, text, CDATA sections,
processing instructions and comments. -/
inductive xmlElementType where
  | XML_ELEMENT_NODE
  | XML_TEXT_NODE
  | XML_CDATA_SECTION_NODE
  | XML_PI_NODE
  | XML_COMMENT_NODE
deriving DecidableEq, Repr

/-- The libxml2 `xmlNode` as far as the header and the content functions read it: `type`, `name`,
`content` (`none` is `NULL`) and the children in document order (the `children` pointer and
the `next` chain; the empty list is `children == NULL`). -/
inductive xmlNode where
  | mk (type : xmlElementType) (name : String) (content : Option String)
      (children : List xmlNode)
deriving Repr

namespace xmlNode

/-- The field `type`. -/
def type : xmlNode → xmlElementType
  | mk t _ _ _ => t

/-- The field `name`. -/
def name : xmlNode → String
  | mk _ n _ _ => n

/-- The field `content`. -/
def content : xmlNode → Option String
  | mk _ _ c _ => c

/-- The field `children` with its `next` chain. -/
def children : xmlNode → List xmlNode
  | mk _ _ _ cs => cs

end xmlNode

/-- The libxml2 `XML_GET_CONTENT(n)` of `libxml/tree.h`:
`((n)->type == XML_ELEMENT_NODE ? NULL : (n)->content)`. -/
def XML_GET_CONTENT (n : xmlNode) : Option String :=
  if n.type = xmlElementType.XML_ELEMENT_NODE then none else n.content

mutual
/-- What the tree walk of the libxml2 `xmlBufGetNodeContent` appends for the subtree of `tmp`:
the content of `tmp` when it is a text or CDATA node with content, then what its children
append, in document order. -/
def xmlBufGetNodeContent : xmlNode → String
  | .mk t _ c cs =>
    (match t with
      | .XML_TEXT_NODE | .XML_CDATA_SECTION_NODE => c.getD ""
      | _ => "") ++ xmlBufGetNodeListContent cs
/-- The walk of `xmlBufGetNodeContent` over a chain of siblings. -/
def xmlBufGetNodeListContent : List xmlNode → String
  | [] => ""
  | n :: ns => xmlBufGetNodeContent n ++ xmlBufGetNodeListContent ns
end

/-- The libxml2 `xmlNodeGetContent(cur)` on trees whose nodes are of the five kinds of
`xmlElementType` (a parsed document with its entity references substituted; attribute,
document, namespace and entity nodes are outside this reading of the engine): for an element
the buffer filled by the tree walk over its descendants (never `NULL`); for a text, CDATA,
comment or processing-instruction node a copy of its `content`, `NULL` when it has none. -/
def xmlNodeGetContent (cur : xmlNode) : Option String :=
  match cur.type with
  | .XML_ELEMENT_NODE => some (xmlBufGetNodeListContent cur.children)
  | .XML_COMMENT_NODE | .XML_PI_NODE => cur.content
  | .XML_CDATA_SECTION_NODE | .XML_TEXT_NODE => cur.content

namespace XmlParser

/-- Function `XmlParser::getNodeInnerText(node)`: the empty string when `node->children` is `NULL`,
otherwise `XML_GET_CONTENT(node->children)`, with `NULL` turned into the empty string. -/
def getNodeInnerText (node : xmlNode) : String :=
  match node.children with
  | [] => ""
  | child :: _ =>
    match XML_GET_CONTENT child with
    | none => ""
    | some content => content

/-- Function `XmlParser::getNodeInnerXml(node)`: the engine call `xmlNodeGetContent(node)`, with
`NULL` turned into the empty string (the buffer is then handed back with `xmlFree`).  The
engine function is the parameter `nodeGetContent`, and `node` is any node the engine takes. -/
def getNodeInnerXml {Node : Type} (nodeGetContent : Node → Option String) (node : Node) :
    String :=
  match nodeGetContent node with
  | none => ""
  | some content => content

end XmlParser

mutual
/-- Reference serialization in the words of the specification (tags and text): the markup of
one node. -/
def specOuterXml : xmlNode → String
  | .mk t n c cs =>
    match t with
    | .XML_ELEMENT_NODE => "<" ++ n ++ ">" ++ specChildrenXml cs ++ "</" ++ n ++ ">"
    | .XML_TEXT_NODE => c.getD ""
    | .XML_CDATA_SECTION_NODE => "<![CDATA[" ++ c.getD "" ++ "]]>"
    | .XML_PI_NODE => "<?" ++ n ++ " " ++ c.getD "" ++ "?>"
    | .XML_COMMENT_NODE => "<!--" ++ c.getD "" ++ "-->"
/-- Reference serialization of a chain of siblings. -/
def specChildrenXml : List xmlNode → String
  | [] => ""
  | n :: ns => specOuterXml n ++ specChildrenXml ns
end

/-- Reference inner serialization in the words of the specification: the serialized children
of the node, tags and text, without the tag of the node itself. -/
def specInnerXml (node : xmlNode) : String :=
  specChildrenXml node.children

mutual
/-- The tree `n` with every node name `x` replaced by `f x`; type, content and shape stay. -/
def xmlNode.rename (f : String → String) : xmlNode → xmlNode
  | .mk t n c cs => .mk t (f n) c (xmlNode.renameList f cs)
/-- The renaming of a chain of siblings. -/
def xmlNode.renameList (f : String → String) : List xmlNode → List xmlNode
  | [] => []
  | n :: ns => xmlNode.rename f n :: xmlNode.renameList f ns
end

mutual
/-- The node followed by all its descendants, in document order. -/
def xmlNode.subtree : xmlNode → List xmlNode
  | .mk t n c cs => .mk t n c cs :: xmlNode.subtreeList cs
/-- The nodes of a chain of siblings with all their descendants, in document order. -/
def xmlNode.subtreeList : List xmlNode → List xmlNode
  | [] => []
  | n :: ns => xmlNode.subtree n ++ xmlNode.subtreeList ns
end

/-- The descendants of a node, in document order. -/
def xmlNode.descendants (node : xmlNode) : List xmlNode :=
  xmlNode.subtreeList node.children

/-- Specification side: the text one node carries, which is its content when it is a text or
CDATA node that has content, and nothing for every other node. -/
def specTextRun (d : xmlNode) : Option String :=
  if d.type = xmlElementType.XML_TEXT_NODE ∨ d.type = xmlElementType.XML_CDATA_SECTION_NODE then
    d.content
  else none

/-- The strings of a list put one after the other. -/
def concatStrings : List String → String
  | [] => ""
  | s :: ss => s ++ concatStrings ss

/-- Specification side: the text content of a node, which is the contents of the text and CDATA
nodes among its descendants, in document order, put together; no tag, no comment and no
processing instruction is part of it. -/
def specTextContent (node : xmlNode) : String :=
  concatStrings (node.descendants.filterMap specTextRun)

/-! ## Example data -/

/-- The element `<a><b>x</b></a>`. -/
def exampleNested : xmlNode :=
  .mk .XML_ELEMENT_NODE "a" none
    [.mk .XML_ELEMENT_NODE "b" none [.mk .XML_TEXT_NODE "text" (some "x") []]]

/-- The element `<a><!--c-->t<?p q?><b>u<![CDATA[v]]></b></a>`. -/
def exampleMixed : xmlNode :=
  .mk .XML_ELEMENT_NODE "a" none
    [.mk .XML_COMMENT_NODE "comment" (some "c") [],
     .mk .XML_TEXT_NODE "text" (some "t") [],
     .mk .XML_PI_NODE "p" (some "q") [],
     .mk .XML_ELEMENT_NODE "b" none
       [.mk .XML_TEXT_NODE "text" (some "u") [],
        .mk .XML_CDATA_SECTION_NODE "cdata" (some "v") []]]

/-- The element `<a>t<b/></a>`: the first child is a text node, the second an element. -/
def exampleTextThenElement : xmlNode :=
  .mk .XML_ELEMENT_NODE "a" none
    [.mk .XML_TEXT_NODE "text" (some "t") [], .mk .XML_ELEMENT_NODE "b" none []]

/-- The element `<a><b/>t</a>`: the first child is an element, the second a text node. -/
def exampleElementThenText : xmlNode :=
  .mk .XML_ELEMENT_NODE "a" none
    [.mk .XML_ELEMENT_NODE "b" none [], .mk .XML_TEXT_NODE "text" (some "t") []]

/-- A node-set of three nodes, the nodes being numbers. -/
def exampleNodeSet : xmlNodeSet Nat :=
  { nodeNr := 3, nodeTab := [10, 20, 30] }

/-- An engine that answers every evaluation with `exampleNodeSet`. -/
def exampleEngine : XPathEngine Nat Unit :=
  { evalExpression := fun _ _ => some (some exampleNodeSet),
    nodeEval := fun _ _ _ => some (some exampleNodeSet) }

/-- A valid parser context. -/
def exampleParser : XmlParser Unit Unit :=
  { m_doc := some (), m_xpathCtx := some () }

/-- An engine that answers every evaluation with a result object whose node-set is empty. -/
def exampleEmptyEngine : XPathEngine Nat Unit :=
  { evalExpression := fun _ _ => some (some { nodeNr := 0, nodeTab := [] }),
    nodeEval := fun _ _ _ => some (some { nodeNr := 0, nodeTab := [] }) }

/-- The enumerator over `exampleNodeSet`, placed at address `0`, with its cursor at `k`. -/
def exampleState (k : Int) : XmlParser.XPathEnumerator Nat :=
  { m_xPathObj := some { addr := 0, nodesetval := some exampleNodeSet },
    m_numberOfNodes := 3, m_cursor := k }

/-- An empty heap. -/
def emptyHeap : XPathHeap :=
  { live := [], freed := [], next := 0 }

end WechatExporter


/-! ## Lemmas on the enumerator -/

namespace WechatExporter

namespace XmlParser

namespace XPathEnumerator

theorem construct_eq {α Doc Ctx : Type} (eng : XPathEngine α Ctx) (p : XmlParser Doc Ctx)
    (args : CtorArgs α) (h : XPathHeap) :
    construct eng p args h =
      ({ m_xPathObj := (XPathHeap.place (outcome eng p args) h).1,
         m_numberOfNodes := (outcome eng p args).count,
         m_cursor := -1 },
       (XPathHeap.place (outcome eng p args) h).2) := by
  cases args with
  | node c x =>
    simp only [construct, outcome, ofNode, xmlXPathNodeEval]
    rcases eng.nodeEval c x p.m_xpathCtx with _ | _ | ns <;>
      simp [XPathHeap.place, XPathOutcome.count]
  | document x =>
    simp only [construct, outcome, ofDocument, xmlXPathEvalExpression]
    rcases eng.evalExpression x p.m_xpathCtx with _ | _ | ns <;>
      simp [XPathHeap.place, XPathOutcome.count]

theorem place_fst_map {α : Type} (r : XPathOutcome α) (h : XPathHeap) :
    (XPathHeap.place r h).1.map (fun o => o.nodesetval) = r := by
  cases r <;> simp [XPathHeap.place]

theorem tracks_construct {α Doc Ctx : Type} (eng : XPathEngine α Ctx) (p : XmlParser Doc Ctx)
    (args : CtorArgs α) (h : XPathHeap) :
    Tracks (outcome eng p args) (construct eng p args h).1 := by
  rw [construct_eq]
  exact ⟨place_fst_map _ _, rfl, le_refl _⟩

theorem nextNode_eq {α : Type} {e e' : XPathEnumerator α} {node : α}
    (hn : nextNode e = some (node, e')) :
    e' = { e with m_cursor := e.m_cursor + 1 } := by
  unfold nextNode at hn
  split at hn
  · simp at hn
  · split at hn
    · simp at hn
    · simp only at hn
      split at hn
      · split at hn
        · simp only [Option.some.injEq, Prod.mk.injEq] at hn
          exact hn.2.symm
        · simp at hn
      · simp at hn

theorem hasNext_iff {α : Type} (e : XPathEnumerator α) :
    hasNext e = true ↔ e.m_cursor < e.m_numberOfNodes - 1 := by
  simp [hasNext]

theorem tracks_reachable {α : Type} {r : XPathOutcome α} {e0 e : XPathEnumerator α}
    (h0 : Tracks r e0) (hr : Reachable e0 e) : Tracks r e := by
  induction hr with
  | start => exact h0
  | next _ _ hn ih =>
    have := nextNode_eq hn
    subst this
    obtain ⟨h1, h2, h3⟩ := ih
    refine ⟨h1, h2, ?_⟩
    show (-1 : Int) ≤ _ + 1
    omega

theorem inv_step {α : Type} {e e' : XPathEnumerator α} {node : α}
    (hi : Inv e) (hh : hasNext e = true) (hn : nextNode e = some (node, e')) : Inv e' := by
  have := nextNode_eq hn
  subst this
  rw [hasNext_iff] at hh
  obtain ⟨h1, h2⟩ := hi
  constructor
  · show (-1 : Int) ≤ _ + 1
    omega
  · show e.m_cursor + 1 ≤ e.m_numberOfNodes - 1
    omega

theorem inv_reachable {α : Type} {e0 e : XPathEnumerator α}
    (h0 : Inv e0) (hr : Reachable e0 e) : Inv e := by
  induction hr with
  | start => exact h0
  | next _ hh hn ih => exact inv_step ih hh hn

theorem frame_reachable {α : Type} {e0 e : XPathEnumerator α} (hr : Reachable e0 e) :
    e.m_xPathObj = e0.m_xPathObj ∧ e.m_numberOfNodes = e0.m_numberOfNodes ∧
      e0.m_cursor ≤ e.m_cursor := by
  induction hr with
  | start => exact ⟨rfl, rfl, le_refl _⟩
  | next _ _ hn ih =>
    have := nextNode_eq hn
    subst this
    obtain ⟨h1, h2, h3⟩ := ih
    refine ⟨h1, h2, ?_⟩
    show e0.m_cursor ≤ _ + 1
    omega

theorem inv_construct {α Doc Ctx : Type} (eng : XPathEngine α Ctx) (p : XmlParser Doc Ctx)
    (args : CtorArgs α) (h : XPathHeap) (hc : 0 ≤ (outcome eng p args).count) :
    Inv (construct eng p args h).1 := by
  rw [construct_eq]
  constructor
  · exact le_refl _
  · show (-1 : Int) ≤ (outcome eng p args).count - 1
    omega

/-- With the count in the range of `int` and the state predicate in force, `m_numberOfNodes - 1`
and, when `hasNext()` is true, `++m_cursor` stay in the range of `int`: the integers of the
embedding agree with the machine arithmetic. -/
theorem arithmetic_in_range {α : Type} (e : XPathEnumerator α) (hi : Inv e)
    (hc : 0 ≤ e.m_numberOfNodes) (hr : Int32.inRange e.m_numberOfNodes) :
    Int32.inRange (e.m_numberOfNodes - 1) ∧
      (hasNext e = true → Int32.inRange (e.m_cursor + 1)) := by
  obtain ⟨h1, h2⟩ := hi
  obtain ⟨h3, h4⟩ := hr
  refine ⟨⟨by omega, by omega⟩, fun hh => ?_⟩
  rw [hasNext_iff] at hh
  exact ⟨by omega, by omega⟩

theorem guarded_access {α : Type} {r : XPathOutcome α} {e : XPathEnumerator α}
    (ht : Tracks r e) (hh : hasNext e = true) :
    ∃ obj ns, e.m_xPathObj = some obj ∧ obj.nodesetval = some ns ∧ r = some (some ns) ∧
      0 ≤ e.m_cursor + 1 ∧ e.m_cursor + 1 < ns.nodeNr := by
  obtain ⟨h1, h2, h3⟩ := ht
  rw [hasNext_iff] at hh
  rcases r with _ | _ | ns
  · simp only [XPathOutcome.count] at h2; omega
  · simp only [XPathOutcome.count] at h2; omega
  · simp only [XPathOutcome.count] at h2
    cases hobj : e.m_xPathObj with
    | none => rw [hobj] at h1; simp at h1
    | some obj =>
      rw [hobj] at h1
      simp only [Option.map_some', Option.some.injEq] at h1
      exact ⟨obj, ns, rfl, h1, rfl, by omega, by omega⟩

theorem nextNode_defined {α : Type} {e : XPathEnumerator α} {obj : xmlXPathObject α}
    {ns : xmlNodeSet α} (ho : e.m_xPathObj = some obj) (hs : obj.nodesetval = some ns)
    (h0 : 0 ≤ e.m_cursor + 1) (h1 : e.m_cursor + 1 < ns.nodeNr)
    (hl : ns.nodeNr ≤ (ns.nodeTab.length : Int)) :
    ∃ node, ns.nodeTab[(e.m_cursor + 1).toNat]? = some node ∧
      nextNode e = some (node, { e with m_cursor := e.m_cursor + 1 }) := by
  have hlt : (e.m_cursor + 1).toNat < ns.nodeTab.length := by omega
  refine ⟨ns.nodeTab[(e.m_cursor + 1).toNat], List.getElem?_eq_getElem hlt, ?_⟩
  unfold nextNode
  simp only [ho, hs, h0, if_true, List.getElem?_eq_getElem hlt]

theorem drain_tracks {α : Type} (r : XPathOutcome α) (hwf : XPathOutcome.WellFormed r) :
    ∀ (k fuel : Nat) (e : XPathEnumerator α), Tracks r e → Inv e →
      e.m_numberOfNodes - 1 - e.m_cursor = (k : Int) → k ≤ fuel →
      drain fuel e =
        .done ((r.table.drop (e.m_cursor + 1).toNat).take k)
          { e with m_cursor := e.m_numberOfNodes - 1 } := by
  intro k
  induction k with
  | zero =>
    intro fuel e _ _ hk _
    have hc : e.m_cursor = e.m_numberOfNodes - 1 := by omega
    have hh : hasNext e = false := by
      simp only [hasNext, decide_eq_false_iff_not]; omega
    have he : ({ e with m_cursor := e.m_numberOfNodes - 1 } : XPathEnumerator α) = e := by
      rw [← hc]
    cases fuel <;> simp [drain, hh, he]
  | succ k ih =>
    intro fuel e ht hi hk hf
    have hh : hasNext e = true := by
      rw [hasNext_iff]; omega
    obtain ⟨obj, ns, ho, hs, hr, h0, h1⟩ := guarded_access ht hh
    have hl : ns.nodeNr ≤ (ns.nodeTab.length : Int) := by
      subst hr; exact hwf.2
    obtain ⟨node, hget, hnext⟩ := nextNode_defined ho hs h0 h1 hl
    have htab : r.table = ns.nodeTab := by subst hr; rfl
    cases fuel with
    | zero => omega
    | succ fuel =>
      have ht' : Tracks r { e with m_cursor := e.m_cursor + 1 } :=
        tracks_reachable ht (Reachable.next Reachable.start hh hnext)
      have hi' : Inv { e with m_cursor := e.m_cursor + 1 } := inv_step hi hh hnext
      have hrec := ih fuel { e with m_cursor := e.m_cursor + 1 } ht' hi'
        (by show e.m_numberOfNodes - 1 - (e.m_cursor + 1) = (k : Int); omega) (by omega)
      have hidx : (e.m_cursor + 1 + 1).toNat = (e.m_cursor + 1).toNat + 1 := by omega
      have hlt : (e.m_cursor + 1).toNat < ns.nodeTab.length := by omega
      have hnode : ns.nodeTab[(e.m_cursor + 1).toNat] = node := by
        rw [List.getElem?_eq_getElem hlt] at hget
        exact Option.some.inj hget
      simp only [drain, hh, if_true, hnext, hrec, htab, hidx]
      rw [List.drop_eq_getElem_cons hlt, List.take_succ_cons, hnode]

end XPathEnumerator

end XmlParser

end WechatExporter

/-! ## Example runs -/

namespace WechatExporter

namespace XmlParser

namespace XPathEnumerator

theorem example_construct (args : CtorArgs Nat) :
    (construct exampleEngine exampleParser args emptyHeap).1 = exampleState (-1) := by
  cases args <;> rfl

theorem example_reachable_one (args : CtorArgs Nat) :
    Reachable (construct exampleEngine exampleParser args emptyHeap).1 (exampleState 0) := by
  rw [example_construct]
  exact Reachable.next Reachable.start (by decide)
    (by decide : nextNode (exampleState (-1)) = some (10, exampleState 0))

theorem example_reachable_three (args : CtorArgs Nat) :
    Reachable (construct exampleEngine exampleParser args emptyHeap).1 (exampleState 2) :=
  Reachable.next
    (Reachable.next (example_reachable_one args) (by decide)
      (by decide : nextNode (exampleState 0) = some (20, exampleState 1)))
    (by decide) (by decide : nextNode (exampleState 1) = some (30, exampleState 2))

theorem example_reachable_from_one :
    Reachable (exampleState 0) (exampleState 1) :=
  Reachable.next Reachable.start (by decide)
    (by decide : nextNode (exampleState 0) = some (20, exampleState 1))

end XPathEnumerator

end XmlParser

end WechatExporter

/-! ## The enumerator: claims -/

namespace WechatExporter

namespace XmlParser

namespace XPathEnumerator

/-- Claim C1.  For an enumerator freshly constructed (by either constructor) from an
evaluation whose outcome is well formed and reports `n` matches, the loop
`while hasNext() do nextNode()` ends (any iteration bound of at least `n` is enough), performs
exactly `n` calls of `nextNode`, and the call number `k + 1` returns the node at index `k` of
the node table of the evaluation: the returned nodes are the first `n` table entries, once
each, in table order.  The loop stops with the cursor at `n - 1` and `hasNext()` false. -/
theorem C1_loop_returns_each_node_once_in_order {α Doc Ctx : Type} (eng : XPathEngine α Ctx)
    (p : XmlParser Doc Ctx) (args : CtorArgs α) (h : XPathHeap) (fuel : Nat)
    (hwf : XPathOutcome.WellFormed (outcome eng p args))
    (hfuel : (outcome eng p args).count ≤ (fuel : Int)) :
    ∃ (nodes : List α) (final : XPathEnumerator α),
      drain fuel (construct eng p args h).1 = .done nodes final ∧
      (nodes.length : Int) = (outcome eng p args).count ∧
      (∀ k : Nat, k < nodes.length →
        ∃ node, nodes[k]? = some node ∧ (outcome eng p args).table[k]? = some node) ∧
      final.m_cursor = (outcome eng p args).count - 1 ∧
      hasNext final = false := by
  have ht := tracks_construct eng p args h
  have hc : 0 ≤ (outcome eng p args).count ∧
      (outcome eng p args).count ≤ ((outcome eng p args).table.length : Int) := by
    rcases hr : outcome eng p args with _ | _ | ns
    · simp [XPathOutcome.count]
    · simp [XPathOutcome.count]
    · rw [hr] at hwf
      exact hwf
  have hi := inv_construct eng p args h hc.1
  have hd := drain_tracks (outcome eng p args) hwf (outcome eng p args).count.toNat fuel
    (construct eng p args h).1 ht hi
    (by rw [construct_eq]; show (outcome eng p args).count - 1 - (-1) = _; omega) (by omega)
  have hz : ((construct eng p args h).1.m_cursor + 1).toNat = 0 := by
    rw [construct_eq]; rfl
  rw [hz, List.drop_zero] at hd
  refine ⟨_, _, hd, ?_, ?_, ?_, ?_⟩
  · rw [List.length_take]; omega
  · intro k hk
    rw [List.length_take] at hk
    have hk1 : k < (outcome eng p args).count.toNat := by omega
    have hk2 : k < (outcome eng p args).table.length := by omega
    refine ⟨(outcome eng p args).table[k], ?_, List.getElem?_eq_getElem hk2⟩
    rw [List.getElem?_take_of_lt hk1, List.getElem?_eq_getElem hk2]
  · show (construct eng p args h).1.m_numberOfNodes - 1 = _
    rw [construct_eq]
  · simp [hasNext]

/-- Witness of C1 on a three-node evaluation. -/
theorem C1_loop_returns_each_node_once_in_order_witness :
    XPathOutcome.WellFormed (outcome exampleEngine exampleParser (CtorArgs.document "//n")) ∧
    ∃ (nodes : List Nat) (final : XPathEnumerator Nat),
      drain 3 (construct exampleEngine exampleParser (CtorArgs.document "//n") emptyHeap).1 =
        .done nodes final ∧
      (nodes.length : Int) =
        (outcome exampleEngine exampleParser (CtorArgs.document "//n")).count ∧
      (∀ k : Nat, k < nodes.length →
        ∃ node, nodes[k]? = some node ∧
          (outcome exampleEngine exampleParser (CtorArgs.document "//n")).table[k]? =
            some node) ∧
      final.m_cursor = (outcome exampleEngine exampleParser (CtorArgs.document "//n")).count - 1 ∧
      hasNext final = false :=
  ⟨by decide,
   C1_loop_returns_each_node_once_in_order exampleEngine exampleParser (CtorArgs.document "//n")
     emptyHeap 3 (by decide) (by decide)⟩

/-- Claim C2.  For every enumerator state reachable from construction (either constructor,
the evaluation reporting a count of at least `0`) by `nextNode()` calls made while `hasNext()`
was true, `hasNext()` is false if and only if the cursor equals `count - 1`; when the
evaluation produced no result object or no match, the count is `0`, the cursor stays `-1` and
`hasNext()` is false. -/
theorem C2_hasNext_false_iff_cursor_last {α Doc Ctx : Type} (eng : XPathEngine α Ctx)
    (p : XmlParser Doc Ctx) (args : CtorArgs α) (h : XPathHeap) (e : XPathEnumerator α)
    (hc : 0 ≤ (outcome eng p args).count)
    (hr : Reachable (construct eng p args h).1 e) :
    (hasNext e = false ↔ e.m_cursor = e.m_numberOfNodes - 1) ∧
    ((outcome eng p args).count = 0 →
      e.m_numberOfNodes = 0 ∧ e.m_cursor = -1 ∧ hasNext e = false) := by
  have hi := inv_reachable (inv_construct eng p args h hc) hr
  have ht := (tracks_reachable (tracks_construct eng p args h) hr).2.1
  obtain ⟨h1, h2⟩ := hi
  constructor
  · simp only [hasNext, decide_eq_false_iff_not]
    omega
  · intro h0
    rw [h0] at ht
    refine ⟨ht, by omega, ?_⟩
    simp only [hasNext, decide_eq_false_iff_not]
    omega

/-- Witness of C2 on the state a three-node evaluation reaches after three `nextNode()` calls,
where the cursor is `2` and `hasNext()` is false. -/
theorem C2_hasNext_false_iff_cursor_last_witness :
    0 ≤ (outcome exampleEngine exampleParser (CtorArgs.node 7 "n")).count ∧
    ((hasNext (exampleState 2) = false ↔
      (exampleState 2).m_cursor = (exampleState 2).m_numberOfNodes - 1) ∧
    ((outcome exampleEngine exampleParser (CtorArgs.node 7 "n")).count = 0 →
      (exampleState 2).m_numberOfNodes = 0 ∧ (exampleState 2).m_cursor = -1 ∧
      hasNext (exampleState 2) = false)) :=
  ⟨by decide,
   C2_hasNext_false_iff_cursor_last exampleEngine exampleParser (CtorArgs.node 7 "n") emptyHeap
     (exampleState 2) (by decide) (example_reachable_three _)⟩

/-- Claim C3.  The state predicate `-1 ≤ cursor ≤ count - 1` holds right after either
constructor (the evaluation reporting a count of at least `0`), and in every state reached from
there by `hasNext()` calls, which leave the state as it is, and `nextNode()` calls made while
`hasNext()` is true; one such `nextNode()` call moves the cursor up by exactly one and keeps
the predicate and the count; between any two states of such a sequence the cursor does not
decrease and the count, which is the count of the evaluation, does not change. -/
theorem C3_cursor_invariant {α Doc Ctx : Type} (eng : XPathEngine α Ctx)
    (p : XmlParser Doc Ctx) (args : CtorArgs α) (h : XPathHeap) (e e' : XPathEnumerator α)
    (hc : 0 ≤ (outcome eng p args).count)
    (hr : Reachable (construct eng p args h).1 e) (hr' : Reachable e e') :
    Inv (construct eng p args h).1 ∧ (construct eng p args h).1.m_cursor = -1 ∧
    Inv e ∧ Inv e' ∧
    e.m_cursor ≤ e'.m_cursor ∧ e'.m_numberOfNodes = e.m_numberOfNodes ∧
    e.m_numberOfNodes = (outcome eng p args).count ∧
    (∀ (node : α) (e1 : XPathEnumerator α), hasNext e = true → nextNode e = some (node, e1) →
      Inv e1 ∧ e1.m_cursor = e.m_cursor + 1 ∧ e1.m_numberOfNodes = e.m_numberOfNodes) := by
  have h0 := inv_construct eng p args h hc
  have hi := inv_reachable h0 hr
  have hf := frame_reachable hr'
  refine ⟨h0, by rw [construct_eq], hi, inv_reachable hi hr', hf.2.2, hf.2.1,
    (tracks_reachable (tracks_construct eng p args h) hr).2.1, ?_⟩
  intro node e1 hh hn
  refine ⟨inv_step hi hh hn, ?_, ?_⟩
  · rw [nextNode_eq hn]
  · rw [nextNode_eq hn]

/-- Witness of C3 on a three-node evaluation: the states after one and after two `nextNode()`
calls. -/
theorem C3_cursor_invariant_witness :
    0 ≤ (outcome exampleEngine exampleParser (CtorArgs.document "//n")).count ∧
    Inv (construct exampleEngine exampleParser (CtorArgs.document "//n") emptyHeap).1 ∧
    (construct exampleEngine exampleParser (CtorArgs.document "//n") emptyHeap).1.m_cursor = -1 ∧
    Inv (exampleState 0) ∧ Inv (exampleState 1) ∧
    (exampleState 0).m_cursor ≤ (exampleState 1).m_cursor ∧
    (exampleState 1).m_numberOfNodes = (exampleState 0).m_numberOfNodes ∧
    (exampleState 0).m_numberOfNodes =
      (outcome exampleEngine exampleParser (CtorArgs.document "//n")).count ∧
    (∀ (node : Nat) (e1 : XPathEnumerator Nat), hasNext (exampleState 0) = true →
      nextNode (exampleState 0) = some (node, e1) →
      Inv e1 ∧ e1.m_cursor = (exampleState 0).m_cursor + 1 ∧
        e1.m_numberOfNodes = (exampleState 0).m_numberOfNodes) :=
  ⟨by decide,
   C3_cursor_invariant exampleEngine exampleParser (CtorArgs.document "//n") emptyHeap
     (exampleState 0) (exampleState 1) (by decide) (example_reachable_one _)
     example_reachable_from_one⟩

/-- Claim C6.  For an enumerator made by either constructor, `isInvalid()` is true if and only
if the evaluation returned no result object; when the evaluation returned a result object
whose node-set is absent or has zero nodes, the enumerator is not invalid, its count is `0`
and `hasNext()` is false. -/
theorem C6_isInvalid_iff_no_result_object {α Doc Ctx : Type} (eng : XPathEngine α Ctx)
    (p : XmlParser Doc Ctx) (args : CtorArgs α) (h : XPathHeap) :
    (isInvalid (construct eng p args h).1 = true ↔ outcome eng p args = none) ∧
    (∀ nsv : Option (xmlNodeSet α), outcome eng p args = some nsv →
      (nsv = none ∨ ∃ ns, nsv = some ns ∧ ns.nodeNr = 0) →
      isInvalid (construct eng p args h).1 = false ∧
      (construct eng p args h).1.m_numberOfNodes = 0 ∧
      hasNext (construct eng p args h).1 = false) := by
  rw [construct_eq]
  constructor
  · cases outcome eng p args <;> simp [isInvalid, XPathHeap.place]
  · intro nsv hr hz
    rw [hr]
    rcases hz with hz | ⟨ns, hz, hn⟩
    · subst hz
      simp [isInvalid, hasNext, XPathHeap.place, XPathOutcome.count]
    · subst hz
      simp [isInvalid, hasNext, XPathHeap.place, XPathOutcome.count, hn]

/-- Witness of C6 on an evaluation that returns a result object with an empty node-set. -/
theorem C6_isInvalid_iff_no_result_object_witness :
    outcome exampleEmptyEngine exampleParser (CtorArgs.document "//n") =
      some (some { nodeNr := 0, nodeTab := [] }) ∧
    isInvalid (construct exampleEmptyEngine exampleParser (CtorArgs.document "//n")
      emptyHeap).1 = false ∧
    (construct exampleEmptyEngine exampleParser (CtorArgs.document "//n")
      emptyHeap).1.m_numberOfNodes = 0 ∧
    hasNext (construct exampleEmptyEngine exampleParser (CtorArgs.document "//n")
      emptyHeap).1 = false :=
  ⟨rfl,
   (C6_isInvalid_iff_no_result_object exampleEmptyEngine exampleParser
     (CtorArgs.document "//n") emptyHeap).2 _ rfl (Or.inr ⟨_, rfl, rfl⟩)⟩

/-- Claim C9.  Over the lifetime of an enumerator (construction by either constructor,
`hasNext()` and guarded `nextNode()` calls, destruction): construction releases nothing; the
calls keep the pointer to the result object and, acting on the enumerator alone, leave the
heap as construction left it; when the evaluation produced no result object nothing is live
after construction and the destructor leaves the heap unchanged; when it produced one, that
object is live until destruction and the destructor performs exactly one release, of that
object, after which the live objects are those from before construction. -/
theorem C9_result_released_once_at_destruction {α Doc Ctx : Type} (eng : XPathEngine α Ctx)
    (p : XmlParser Doc Ctx) (args : CtorArgs α) (h : XPathHeap) (e : XPathEnumerator α)
    (hr : Reachable (construct eng p args h).1 e) :
    (construct eng p args h).2.freed = h.freed ∧
    e.m_xPathObj = (construct eng p args h).1.m_xPathObj ∧
    (outcome eng p args = none →
      (construct eng p args h).2 = h ∧ destroy e (construct eng p args h).2 = h) ∧
    (outcome eng p args ≠ none →
      e.m_xPathObj.map (fun o => o.addr) = some h.next ∧
      (construct eng p args h).2.live = h.next :: h.live ∧
      (destroy e (construct eng p args h).2).freed = h.next :: h.freed ∧
      (destroy e (construct eng p args h).2).live = h.live) := by
  have hf := (frame_reachable hr).1
  rw [construct_eq] at hf ⊢
  simp only at hf ⊢
  generalize outcome eng p args = r at hf ⊢
  rcases r with _ | nsv
  · simp only [XPathHeap.place] at hf ⊢
    simp [destroy, hf]
  · simp only [XPathHeap.place] at hf ⊢
    simp [destroy, hf, xmlXPathFreeObject]

/-- Witness of C9 on a three-node evaluation, destroyed after one `nextNode()` call. -/
theorem C9_result_released_once_at_destruction_witness :
    Reachable (construct exampleEngine exampleParser (CtorArgs.document "//n") emptyHeap).1
      (exampleState 0) ∧
    (destroy (exampleState 0)
      (construct exampleEngine exampleParser (CtorArgs.document "//n") emptyHeap).2).freed =
        [0] ∧
    (destroy (exampleState 0)
      (construct exampleEngine exampleParser (CtorArgs.document "//n") emptyHeap).2).live =
        [] :=
  ⟨example_reachable_one _,
   ((C9_result_released_once_at_destruction exampleEngine exampleParser
      (CtorArgs.document "//n") emptyHeap (exampleState 0) (example_reachable_one _)).2.2.2
      (by decide)).2.2⟩

/-- Claim C10.  In every enumerator state reachable from construction (either constructor) by
`nextNode()` calls made while `hasNext()` was true: when `hasNext()` is true, the result
object and its node-set are both present, so the enumerator is not invalid, and the index
`cursor + 1` of the next `nextNode()` call satisfies `0 ≤ cursor + 1 < nodeNr`; with a node
table of at least `nodeNr` entries that call is defined, returns the table entry at that index
and moves the cursor there. -/
theorem C10_guarded_nextNode_in_bounds {α Doc Ctx : Type} (eng : XPathEngine α Ctx)
    (p : XmlParser Doc Ctx) (args : CtorArgs α) (h : XPathHeap) (e : XPathEnumerator α)
    (hr : Reachable (construct eng p args h).1 e) (hh : hasNext e = true) :
    isInvalid e = false ∧
    ∃ obj ns, e.m_xPathObj = some obj ∧ obj.nodesetval = some ns ∧
      0 ≤ e.m_cursor + 1 ∧ e.m_cursor + 1 < ns.nodeNr ∧
      (ns.nodeNr ≤ (ns.nodeTab.length : Int) →
        ∃ node, ns.nodeTab[(e.m_cursor + 1).toNat]? = some node ∧
          nextNode e = some (node, { e with m_cursor := e.m_cursor + 1 })) := by
  have ht := tracks_reachable (tracks_construct eng p args h) hr
  obtain ⟨obj, ns, ho, hs, _, h0, h1⟩ := guarded_access ht hh
  refine ⟨by simp [isInvalid, ho], obj, ns, ho, hs, h0, h1, ?_⟩
  intro hl
  exact nextNode_defined ho hs h0 h1 hl

/-- Witness of C10 on a three-node evaluation, after one `nextNode()` call. -/
theorem C10_guarded_nextNode_in_bounds_witness :
    hasNext (exampleState 0) = true ∧
    isInvalid (exampleState 0) = false ∧
    ∃ obj ns, (exampleState 0).m_xPathObj = some obj ∧ obj.nodesetval = some ns ∧
      0 ≤ (exampleState 0).m_cursor + 1 ∧ (exampleState 0).m_cursor + 1 < ns.nodeNr ∧
      (ns.nodeNr ≤ (ns.nodeTab.length : Int) →
        ∃ node, ns.nodeTab[((exampleState 0).m_cursor + 1).toNat]? = some node ∧
          nextNode (exampleState 0) =
            some (node, { exampleState 0 with m_cursor := (exampleState 0).m_cursor + 1 })) :=
  ⟨by decide,
   C10_guarded_nextNode_in_bounds exampleEngine exampleParser (CtorArgs.node 7 "n") emptyHeap
     (exampleState 0) (example_reachable_one _) (by decide)⟩

end XPathEnumerator

end XmlParser

end WechatExporter

/-! ## Handler dispatch: claims -/

namespace WechatExporter

namespace XmlParser

theorem specDispatch_eq_some_iff {α Doc Ctx : Type} (eng : XPathEngine α Ctx)
    (self : XmlParser Doc Ctx) (xpath : String) (ns : xmlNodeSet α) :
    specDispatch eng self xpath = some ns ↔
      (self.m_doc ≠ none ∧ self.m_xpathCtx ≠ none ∧
        eng.evalExpression xpath self.m_xpathCtx = some (some ns) ∧ 0 < ns.nodeNr) := by
  unfold specDispatch
  rcases hd : self.m_doc with _ | d
  · simp
  · rcases hc : self.m_xpathCtx with _ | c
    · simp
    · rcases he : eng.evalExpression xpath (some c) with _ | _ | ns'
      · simp
      · simp
      · by_cases hn : 0 < ns'.nodeNr
        · simp only [Option.isSome_some, Bool.and_self, if_true, hn, Option.some.injEq, ne_eq,
            not_false_eq_true, true_and, reduceCtorEq]
          constructor
          · intro h; subst h; exact ⟨rfl, hn⟩
          · intro h; exact h.1
        · simp only [Option.isSome_some, Bool.and_self, if_true, hn, if_false, ne_eq,
            not_false_eq_true, true_and, reduceCtorEq, Option.some.injEq, false_iff, not_and]
          intro h; subst h; exact hn

theorem parseWithHandler_eq {α Doc Ctx σ : Type} (eng : XPathEngine α Ctx)
    (self : XmlParser Doc Ctx) (xpath : String) (handler : xmlNodeSet α → σ → Bool × σ)
    (s : σ) (h : XPathHeap) :
    (parseWithHandler eng self xpath handler s h).1 =
      (match specDispatch eng self xpath with
        | some ns => (handler ns s).1
        | none => false) ∧
    (parseWithHandler eng self xpath handler s h).2.1 =
      (match specDispatch eng self xpath with
        | some ns => (handler ns s).2
        | none => s) := by
  unfold parseWithHandler specDispatch xmlXPathEvalExpression
  rcases hd : self.m_doc with _ | d
  · simp
  · rcases hc : self.m_xpathCtx with _ | c
    · simp
    · rcases he : eng.evalExpression xpath (some c) with _ | _ | ns'
      · simp [XPathHeap.place]
      · simp [XPathHeap.place]
      · by_cases hn : 0 < ns'.nodeNr <;> simp [XPathHeap.place, hn]

/-- Claim C4.  For every expression and handler, `parseWithHandler` invokes the handler
exactly once, with the evaluated node-set, when the document and the XPath context are both
present, the evaluation produced a result object, and the node-set of that object is present
with at least one node, and it does not invoke the handler at all in every other case (the
log of the recording handler is the one node-set, or empty); in the first case it returns the
boolean result of the handler and the handler state is the one the invocation leaves, in the
other cases it returns false and the handler state is untouched. -/
theorem C4_handler_invoked_iff_nonempty_result {α Doc Ctx σ : Type} (eng : XPathEngine α Ctx)
    (self : XmlParser Doc Ctx) (xpath : String) (handler : xmlNodeSet α → σ → Bool × σ)
    (s : σ) (h : XPathHeap) :
    (∀ ns, specDispatch eng self xpath = some ns ↔
      (self.m_doc ≠ none ∧ self.m_xpathCtx ≠ none ∧
        eng.evalExpression xpath self.m_xpathCtx = some (some ns) ∧ 0 < ns.nodeNr)) ∧
    (parseWithHandler eng self xpath (recording handler) (s, []) h).2.1.2 =
      (specDispatch eng self xpath).toList ∧
    (parseWithHandler eng self xpath (recording handler) (s, []) h).1 =
      (parseWithHandler eng self xpath handler s h).1 ∧
    (parseWithHandler eng self xpath (recording handler) (s, []) h).2.1.1 =
      (parseWithHandler eng self xpath handler s h).2.1 ∧
    (parseWithHandler eng self xpath handler s h).1 =
      (match specDispatch eng self xpath with
        | some ns => (handler ns s).1
        | none => false) ∧
    (parseWithHandler eng self xpath handler s h).2.1 =
      (match specDispatch eng self xpath with
        | some ns => (handler ns s).2
        | none => s) := by
  have h1 := parseWithHandler_eq eng self xpath handler s h
  have h2 := parseWithHandler_eq eng self xpath (recording handler) (s, []) h
  refine ⟨specDispatch_eq_some_iff eng self xpath, ?_, ?_, ?_, h1.1, h1.2⟩
  · rw [h2.2]
    cases specDispatch eng self xpath <;> simp [recording]
  · rw [h2.1, h1.1]
    cases specDispatch eng self xpath <;> simp [recording]
  · rw [h2.2, h1.2]
    cases specDispatch eng self xpath <;> simp [recording]

/-- Claim C5.  With result objects as explicit state: after every call of `parseWithHandler`
the live objects are exactly those from before the call, and the release log has grown by
exactly the objects the call obtained, each released exactly once; the call obtains one
object when the context is valid and the evaluation returns an object (whatever the handler
returns, and also when the node-set is absent or empty), and none when the context is invalid
or the evaluation fails. -/
theorem C5_every_result_released_once {α Doc Ctx σ : Type} (eng : XPathEngine α Ctx)
    (self : XmlParser Doc Ctx) (xpath : String) (handler : xmlNodeSet α → σ → Bool × σ)
    (s : σ) (h : XPathHeap) :
    (parseWithHandler eng self xpath handler s h).2.2.live = h.live ∧
    (parseWithHandler eng self xpath handler s h).2.2.live.length = h.live.length ∧
    (parseWithHandler eng self xpath handler s h).2.2.freed =
      specObtained eng self xpath h ++ h.freed ∧
    (∀ a ∈ specObtained eng self xpath h,
      (parseWithHandler eng self xpath handler s h).2.2.freed.count a =
        h.freed.count a + 1) ∧
    (specObtained eng self xpath h = [h.next] ↔
      (self.m_doc ≠ none ∧ self.m_xpathCtx ≠ none ∧
        eng.evalExpression xpath self.m_xpathCtx ≠ none)) ∧
    (specObtained eng self xpath h = [] ↔
      (self.m_doc = none ∨ self.m_xpathCtx = none ∨
        eng.evalExpression xpath self.m_xpathCtx = none)) := by
  unfold parseWithHandler specObtained xmlXPathEvalExpression
  rcases hd : self.m_doc with _ | d
  · simp
  · rcases hc : self.m_xpathCtx with _ | c
    · simp
    · rcases he : eng.evalExpression xpath (some c) with _ | _ | ns'
      · simp [XPathHeap.place]
      · simp [XPathHeap.place, xmlXPathFreeObject]
      · by_cases hn : 0 < ns'.nodeNr <;> simp [XPathHeap.place, xmlXPathFreeObject, hn]

end XmlParser

end WechatExporter

/-! ## Node utilities: claims -/

namespace WechatExporter

namespace XmlParser

/-- Claim C7, as stated, fails: for the node `<a><b/>t</a>`, whose first child is an element and
whose second child is a text node with content `t`, `getNodeInnerText` is the empty string,
not `t`. -/
theorem C7_counterexample :
    (∃ b, exampleElementThenText.children =
        [b, xmlNode.mk xmlElementType.XML_TEXT_NODE "text" (some "t") []] ∧
      b.type = xmlElementType.XML_ELEMENT_NODE) ∧
    getNodeInnerText exampleElementThenText = "" ∧
    getNodeInnerText exampleElementThenText ≠ "t" := by
  refine ⟨⟨_, rfl, rfl⟩, by decide, by decide⟩

/-- Claim C7, amended.  For every node, `getNodeInnerText(node)` is decided by the first child
alone: it is the empty string when the node has no child, when the first child is an element,
or when the first child has no content, and it is the content of the first child when that
child is not an element and has content; the children after the first never contribute. -/
theorem C7_inner_text_is_content_of_first_child (node : xmlNode) :
    (node.children = [] → getNodeInnerText node = "") ∧
    (∀ c rest, node.children = c :: rest → c.type = xmlElementType.XML_ELEMENT_NODE →
      getNodeInnerText node = "") ∧
    (∀ c rest, node.children = c :: rest → c.content = none → getNodeInnerText node = "") ∧
    (∀ c rest t, node.children = c :: rest → c.type ≠ xmlElementType.XML_ELEMENT_NODE →
      c.content = some t → getNodeInnerText node = t) ∧
    (∀ c rest (other : xmlNode) rest', node.children = c :: rest →
      other.children = c :: rest' → getNodeInnerText node = getNodeInnerText other) := by
  refine ⟨?_, ?_, ?_, ?_, ?_⟩
  · intro h
    simp [getNodeInnerText, h]
  · intro c rest h ht
    simp [getNodeInnerText, h, XML_GET_CONTENT, ht]
  · intro c rest h hc
    simp [getNodeInnerText, h, XML_GET_CONTENT, hc]
  · intro c rest t h ht hc
    simp [getNodeInnerText, h, XML_GET_CONTENT, ht, hc]
  · intro c rest other rest' h h'
    simp [getNodeInnerText, h, h']

/-- Witness of the amended C7 on `<a>t<b/></a>`, whose first child is a text node. -/
theorem C7_inner_text_is_content_of_first_child_witness :
    exampleTextThenElement.children =
      [xmlNode.mk xmlElementType.XML_TEXT_NODE "text" (some "t") [],
       xmlNode.mk xmlElementType.XML_ELEMENT_NODE "b" none []] ∧
    getNodeInnerText exampleTextThenElement = "t" :=
  ⟨rfl,
   (C7_inner_text_is_content_of_first_child exampleTextThenElement).2.2.2.1 _ _ "t" rfl
     (by decide) rfl⟩

mutual
theorem xmlBufGetNodeContent_rename (f : String → String) :
    ∀ n : xmlNode, xmlBufGetNodeContent (xmlNode.rename f n) = xmlBufGetNodeContent n
  | .mk t n c cs => by
    simp only [xmlNode.rename, xmlBufGetNodeContent, xmlBufGetNodeListContent_rename f cs]
theorem xmlBufGetNodeListContent_rename (f : String → String) :
    ∀ ns : List xmlNode,
      xmlBufGetNodeListContent (xmlNode.renameList f ns) = xmlBufGetNodeListContent ns
  | [] => by simp only [xmlNode.renameList]
  | n :: ns => by
    simp only [xmlNode.renameList, xmlBufGetNodeListContent, xmlBufGetNodeContent_rename f n,
      xmlBufGetNodeListContent_rename f ns]
end

theorem getNodeInnerXml_rename (f : String → String) (node : xmlNode) :
    getNodeInnerXml xmlNodeGetContent (xmlNode.rename f node) =
      getNodeInnerXml xmlNodeGetContent node := by
  cases node with
  | mk t n c cs =>
    cases t <;>
      simp [getNodeInnerXml, xmlNodeGetContent, xmlNode.rename, xmlNode.type, xmlNode.children,
        xmlNode.content, xmlBufGetNodeListContent_rename]

theorem concatStrings_append (xs ys : List String) :
    concatStrings (xs ++ ys) = concatStrings xs ++ concatStrings ys := by
  induction xs with
  | nil => simp [concatStrings]
  | cons x xs ih => simp [concatStrings, ih, String.append_assoc]

mutual
theorem xmlBufGetNodeContent_eq_runs :
    ∀ n : xmlNode,
      xmlBufGetNodeContent n = concatStrings ((xmlNode.subtree n).filterMap specTextRun)
  | .mk t n c cs => by
    have ih := xmlBufGetNodeListContent_eq_runs cs
    cases t <;> cases c <;>
      simp [xmlBufGetNodeContent, xmlNode.subtree, specTextRun, xmlNode.type, xmlNode.content,
        concatStrings, ih, List.filterMap_cons]
theorem xmlBufGetNodeListContent_eq_runs :
    ∀ ns : List xmlNode,
      xmlBufGetNodeListContent ns =
        concatStrings ((xmlNode.subtreeList ns).filterMap specTextRun)
  | [] => by simp [xmlBufGetNodeListContent, xmlNode.subtreeList, concatStrings]
  | n :: ns => by
    simp [xmlBufGetNodeListContent, xmlNode.subtreeList, List.filterMap_append,
      concatStrings_append, xmlBufGetNodeContent_eq_runs n, xmlBufGetNodeListContent_eq_runs ns]
end

theorem getNodeInnerXml_cons (n : String) (c : Option String) (t1 : xmlElementType)
    (n1 : String) (c1 : Option String) (cs1 rest : List xmlNode) :
    getNodeInnerXml xmlNodeGetContent
        (xmlNode.mk xmlElementType.XML_ELEMENT_NODE n c (xmlNode.mk t1 n1 c1 cs1 :: rest)) =
      (specTextRun (xmlNode.mk t1 n1 c1 cs1)).getD "" ++
        (getNodeInnerXml xmlNodeGetContent
            (xmlNode.mk xmlElementType.XML_ELEMENT_NODE n1 none cs1) ++
          getNodeInnerXml xmlNodeGetContent
            (xmlNode.mk xmlElementType.XML_ELEMENT_NODE n c rest)) := by
  cases t1 <;> cases c1 <;>
    simp [getNodeInnerXml, xmlNodeGetContent, xmlNode.type, xmlNode.children, xmlNode.content,
      xmlBufGetNodeListContent, xmlBufGetNodeContent, specTextRun, String.append_assoc]

/-- Claim C8, as stated, fails: for the node `<a><b>x</b></a>`, with the one child element
`<b>x</b>`, `getNodeInnerXml` over the libxml2 `xmlNodeGetContent` is the text `x`; it is not
the serialization `<b>x</b>` of the children and holds no character of the markup of `b`. -/
theorem C8_counterexample :
    exampleNested.children =
      [xmlNode.mk xmlElementType.XML_ELEMENT_NODE "b" none
        [xmlNode.mk xmlElementType.XML_TEXT_NODE "text" (some "x") []]] ∧
    getNodeInnerXml xmlNodeGetContent exampleNested = "x" ∧
    specInnerXml exampleNested = "<b>x</b>" ∧
    getNodeInnerXml xmlNodeGetContent exampleNested ≠ specInnerXml exampleNested ∧
    '<' ∉ (getNodeInnerXml xmlNodeGetContent exampleNested).toList := by
  refine ⟨rfl, by decide, by decide, by decide, by decide⟩

/-- Claim C8, amended.  For every node and every engine, `getNodeInnerXml(node)` is exactly what
the `xmlNodeGetContent` of the engine returns for the node, and the empty string when the
engine returns no content.  With the libxml2 `xmlNodeGetContent` on trees of elements, text,
CDATA sections, comments and processing instructions this is text, not a serialization:
for an element it is the contents of the text and CDATA nodes among its descendants, in
document order, put together; for a node that is not an element it is the content of the node
itself, empty when it has none.  Child by child: an element without children gives the empty
string, and otherwise the first child contributes its own content when it is a text or CDATA
node with content and nothing of its own otherwise (an element, a comment, a processing
instruction, a node without content), followed by what its children give, followed by what the
remaining children give; no tag takes part, and renaming the nodes of the tree leaves the
result as it is. -/
theorem C8_inner_xml_is_text_content (node : xmlNode) :
    (∀ (Node : Type) (engine : Node → Option String) (x : Node),
      (engine x = none → getNodeInnerXml engine x = "") ∧
      (∀ t, engine x = some t → getNodeInnerXml engine x = t)) ∧
    (node.type = xmlElementType.XML_ELEMENT_NODE →
      getNodeInnerXml xmlNodeGetContent node = specTextContent node) ∧
    (node.type ≠ xmlElementType.XML_ELEMENT_NODE →
      getNodeInnerXml xmlNodeGetContent node = node.content.getD "") ∧
    (∀ n c, getNodeInnerXml xmlNodeGetContent
      (xmlNode.mk xmlElementType.XML_ELEMENT_NODE n c []) = "") ∧
    (∀ n c t1 n1 c1 cs1 rest,
      getNodeInnerXml xmlNodeGetContent
          (xmlNode.mk xmlElementType.XML_ELEMENT_NODE n c (xmlNode.mk t1 n1 c1 cs1 :: rest)) =
        (specTextRun (xmlNode.mk t1 n1 c1 cs1)).getD "" ++
          (getNodeInnerXml xmlNodeGetContent
              (xmlNode.mk xmlElementType.XML_ELEMENT_NODE n1 none cs1) ++
            getNodeInnerXml xmlNodeGetContent
              (xmlNode.mk xmlElementType.XML_ELEMENT_NODE n c rest))) ∧
    (∀ n c n1 t rest,
      getNodeInnerXml xmlNodeGetContent (xmlNode.mk xmlElementType.XML_ELEMENT_NODE n c
          (xmlNode.mk xmlElementType.XML_TEXT_NODE n1 (some t) [] :: rest)) =
        t ++ getNodeInnerXml xmlNodeGetContent
          (xmlNode.mk xmlElementType.XML_ELEMENT_NODE n c rest)) ∧
    (∀ n c n1 t rest,
      getNodeInnerXml xmlNodeGetContent (xmlNode.mk xmlElementType.XML_ELEMENT_NODE n c
          (xmlNode.mk xmlElementType.XML_CDATA_SECTION_NODE n1 (some t) [] :: rest)) =
        t ++ getNodeInnerXml xmlNodeGetContent
          (xmlNode.mk xmlElementType.XML_ELEMENT_NODE n c rest)) ∧
    (∀ n c n1 c1 cs1 rest,
      getNodeInnerXml xmlNodeGetContent (xmlNode.mk xmlElementType.XML_ELEMENT_NODE n c
          (xmlNode.mk xmlElementType.XML_ELEMENT_NODE n1 c1 cs1 :: rest)) =
        getNodeInnerXml xmlNodeGetContent
            (xmlNode.mk xmlElementType.XML_ELEMENT_NODE n1 c1 cs1) ++
          getNodeInnerXml xmlNodeGetContent
            (xmlNode.mk xmlElementType.XML_ELEMENT_NODE n c rest)) ∧
    (∀ n c n1 c1 rest,
      getNodeInnerXml xmlNodeGetContent (xmlNode.mk xmlElementType.XML_ELEMENT_NODE n c
          (xmlNode.mk xmlElementType.XML_COMMENT_NODE n1 c1 [] :: rest)) =
        getNodeInnerXml xmlNodeGetContent
          (xmlNode.mk xmlElementType.XML_ELEMENT_NODE n c rest)) ∧
    (∀ n c n1 c1 rest,
      getNodeInnerXml xmlNodeGetContent (xmlNode.mk xmlElementType.XML_ELEMENT_NODE n c
          (xmlNode.mk xmlElementType.XML_PI_NODE n1 c1 [] :: rest)) =
        getNodeInnerXml xmlNodeGetContent
          (xmlNode.mk xmlElementType.XML_ELEMENT_NODE n c rest)) ∧
    (∀ n c t1 n1 rest,
      getNodeInnerXml xmlNodeGetContent (xmlNode.mk xmlElementType.XML_ELEMENT_NODE n c
          (xmlNode.mk t1 n1 none [] :: rest)) =
        getNodeInnerXml xmlNodeGetContent
          (xmlNode.mk xmlElementType.XML_ELEMENT_NODE n c rest)) ∧
    (∀ f : String → String,
      getNodeInnerXml xmlNodeGetContent (xmlNode.rename f node) =
        getNodeInnerXml xmlNodeGetContent node) := by
  have hnil : ∀ n c, getNodeInnerXml xmlNodeGetContent
      (xmlNode.mk xmlElementType.XML_ELEMENT_NODE n c []) = "" := by
    intro n c
    simp [getNodeInnerXml, xmlNodeGetContent, xmlNode.type, xmlNode.children,
      xmlBufGetNodeListContent]
  refine ⟨?_, ?_, ?_, hnil, getNodeInnerXml_cons, ?_, ?_, ?_, ?_, ?_, ?_, ?_⟩
  · intro Node engine x
    constructor
    · intro h
      simp [getNodeInnerXml, h]
    · intro t h
      simp [getNodeInnerXml, h]
  · intro ht
    simp [getNodeInnerXml, xmlNodeGetContent, ht, specTextContent, xmlNode.descendants,
      xmlBufGetNodeListContent_eq_runs]
  · intro ht
    cases node with
    | mk t n c cs =>
      cases t <;> cases c <;>
        simp_all [getNodeInnerXml, xmlNodeGetContent, xmlNode.type, xmlNode.content]
  · intro n c n1 t rest
    rw [getNodeInnerXml_cons, hnil]
    simp [specTextRun, xmlNode.type, xmlNode.content]
  · intro n c n1 t rest
    rw [getNodeInnerXml_cons, hnil]
    simp [specTextRun, xmlNode.type, xmlNode.content]
  · intro n c n1 c1 cs1 rest
    simp [getNodeInnerXml, xmlNodeGetContent, xmlNode.type, xmlNode.children,
      xmlBufGetNodeListContent, xmlBufGetNodeContent]
  · intro n c n1 c1 rest
    rw [getNodeInnerXml_cons, hnil]
    simp [specTextRun, xmlNode.type]
  · intro n c n1 c1 rest
    rw [getNodeInnerXml_cons, hnil]
    simp [specTextRun, xmlNode.type]
  · intro n c t1 n1 rest
    rw [getNodeInnerXml_cons, hnil]
    simp [specTextRun, xmlNode.content]
  · intro f
    exact getNodeInnerXml_rename f node

/-- Witness of the amended C8 on `<a><!--c-->t<?p q?><b>u<![CDATA[v]]></b></a>`: the result is
the text `tuv`, without the comment `c`, the processing instruction `q` and the tag of `b`. -/
theorem C8_inner_xml_is_text_content_witness :
    exampleMixed.type = xmlElementType.XML_ELEMENT_NODE ∧
    specTextContent exampleMixed = "tuv" ∧
    getNodeInnerXml xmlNodeGetContent exampleMixed = specTextContent exampleMixed :=
  ⟨rfl, by decide, (C8_inner_xml_is_text_content exampleMixed).2.1 rfl⟩

end XmlParser

end WechatExporter
